import Mathlib

/-!
Verification of the wgpu-renderer repository.

Shallow embedding of the math and state-handling code of the renderer:

  * the tangent/bitangent computation of load_model (src/model/resource.rs),
    with f32 coordinates modelled as exact rationals;
  * GraphicsState resize and the per-frame surface-error handling
    (src/main.rs), with u32 sizes as naturals;
  * the camera, projection and controller math (src/camera.rs) and the
    instance grid (src/main.rs), with f32 scalars modelled as reals, since
    they involve trigonometric functions and pi.

Matrix and quaternion operations of the cgmath library are embedded from
their published semantics: Matrix4.new takes its sixteen scalars in
column-major order, Quaternion.from_axis_angle builds
cos of half the angle plus sin of half the angle times the axis, and
normalize multiplies a vector by one over its magnitude.
-/

namespace WgpuRenderer

/-! ## Rational vectors, for the mesh loader of src/model/resource.rs -/

/-- Planar vector of exact rationals, modelling cgmath Vector2 of f32. -/
structure Vec2 where
  x : ℚ
  y : ℚ
deriving DecidableEq

/-- Spatial vector of exact rationals, modelling cgmath Vector3 of f32. -/
structure Vec3 where
  x : ℚ
  y : ℚ
  z : ℚ
deriving DecidableEq

instance : Add Vec3 := ⟨fun a b => ⟨a.x + b.x, a.y + b.y, a.z + b.z⟩⟩

instance : Sub Vec3 := ⟨fun a b => ⟨a.x - b.x, a.y - b.y, a.z - b.z⟩⟩

instance : Sub Vec2 := ⟨fun a b => ⟨a.x - b.x, a.y - b.y⟩⟩

instance : Zero Vec3 := ⟨⟨0, 0, 0⟩⟩

instance : HMul Vec3 ℚ Vec3 := ⟨fun v q => ⟨v.x * q, v.y * q, v.z * q⟩⟩

theorem Vec3.ext_iff {a b : Vec3} : a = b ↔ a.x = b.x ∧ a.y = b.y ∧ a.z = b.z := by
  cases a; cases b; simp

theorem Vec3.add_def (a b : Vec3) : a + b = ⟨a.x + b.x, a.y + b.y, a.z + b.z⟩ := rfl

theorem Vec3.mul_def (v : Vec3) (q : ℚ) : v * q = ⟨v.x * q, v.y * q, v.z * q⟩ := rfl

theorem Vec3.zero_def : (0 : Vec3) = ⟨0, 0, 0⟩ := rfl

theorem Vec3.zero_add (v : Vec3) : (0 : Vec3) + v = v := by
  cases v; simp [Vec3.add_def, Vec3.zero_def]

/-! ## Mesh vertices and the tangent computation of load_model

The relevant slice of load_model (src/model/resource.rs lines 79 to 169)
builds one ModelVertex per position triple, zero tangent and bitangent
included, walks the index buffer in chunks of three, accumulates a
per-triangle tangent and bitangent into the three referenced vertices while
counting references, and finally scales each vertex by one over its
reference count. -/

/-- Mirror of the ModelVertex fields the tangent pass touches. -/
structure ModelVertex where
  position : Vec3
  texture_coordinates : Vec2
  normal : Vec3
  tangent : Vec3
  bitangent : Vec3
deriving DecidableEq

instance : Inhabited ModelVertex :=
  ⟨⟨⟨0, 0, 0⟩, ⟨0, 0⟩, ⟨0, 0, 0⟩, ⟨0, 0, 0⟩, ⟨0, 0, 0⟩⟩⟩

/-- Vertex construction of load_model lines 82 to 101: one vertex per
position triple, read out of the flat tobj arrays, tangent and bitangent
initialised to zero. -/
def buildVertices (positions texcoords normals : List ℚ) : List ModelVertex :=
  (List.range (positions.length / 3)).map fun i =>
    { position := ⟨positions.getD (i * 3) 0, positions.getD (i * 3 + 1) 0,
        positions.getD (i * 3 + 2) 0⟩
      texture_coordinates := ⟨texcoords.getD (i * 2) 0, texcoords.getD (i * 2 + 1) 0⟩
      normal := ⟨normals.getD (i * 3) 0, normals.getD (i * 3 + 1) 0,
        normals.getD (i * 3 + 2) 0⟩
      tangent := ⟨0, 0, 0⟩
      bitangent := ⟨0, 0, 0⟩ }

/-- The index buffer walked in chunks of three, as in indices.chunks(3);
a trailing chunk shorter than three, on which the source would panic when
indexing c at 1 or 2, is dropped. -/
def chunks3 : List Nat → List (Nat × Nat × Nat)
  | a :: b :: c :: rest => (a, b, c) :: chunks3 rest
  | _ => []

/-- Texture-space edge determinant of one index triple, the divisor of the
r computation at line 137 of src/model/resource.rs. -/
def uvDet (vertices : List ModelVertex) (c : Nat × Nat × Nat) : ℚ :=
  let v0 := vertices.getD c.1 default
  let v1 := vertices.getD c.2.1 default
  let v2 := vertices.getD c.2.2 default
  let delta_uv1 := v1.texture_coordinates - v0.texture_coordinates
  let delta_uv2 := v2.texture_coordinates - v0.texture_coordinates
  delta_uv1.x * delta_uv2.y - delta_uv1.y * delta_uv2.x

/-- Per-triangle tangent and bitangent, lines 110 to 141 of
src/model/resource.rs: the determinant-based closed form, with r unguarded
division by the texture-space determinant and the bitangent negated. -/
def triangleTB (vertices : List ModelVertex) (c : Nat × Nat × Nat) : Vec3 × Vec3 :=
  let v0 := vertices.getD c.1 default
  let v1 := vertices.getD c.2.1 default
  let v2 := vertices.getD c.2.2 default
  let delta_pos1 := v1.position - v0.position
  let delta_pos2 := v2.position - v0.position
  let delta_uv1 := v1.texture_coordinates - v0.texture_coordinates
  let delta_uv2 := v2.texture_coordinates - v0.texture_coordinates
  let r := 1 / (delta_uv1.x * delta_uv2.y - delta_uv1.y * delta_uv2.x)
  let tangent := (delta_pos1 * delta_uv2.y - delta_pos2 * delta_uv1.y) * r
  let bitangent := (delta_pos2 * delta_uv1.x - delta_pos1 * delta_uv2.x) * (-r)
  (tangent, bitangent)

/-- Read-modify-write of one tangent slot, as in lines 144 to 149. -/
def addToTangent (vs : List ModelVertex) (i : Nat) (t : Vec3) : List ModelVertex :=
  vs.set i { vs.getD i default with tangent := t + (vs.getD i default).tangent }

/-- Read-modify-write of one bitangent slot, as in lines 150 to 155. -/
def addToBitangent (vs : List ModelVertex) (i : Nat) (t : Vec3) : List ModelVertex :=
  vs.set i { vs.getD i default with bitangent := t + (vs.getD i default).bitangent }

/-- One iteration of the triangle loop, lines 109 to 161: compute the
tangent and bitangent of the triple, add them into its three vertices in
source order, and bump the three reference counts. -/
def applyTriangle (acc : List ModelVertex × List Nat) (c : Nat × Nat × Nat) :
    List ModelVertex × List Nat :=
  let vertices := acc.1
  let counts := acc.2
  let tb := triangleTB vertices c
  let vertices := addToTangent vertices c.1 tb.1
  let vertices := addToTangent vertices c.2.1 tb.1
  let vertices := addToTangent vertices c.2.2 tb.1
  let vertices := addToBitangent vertices c.1 tb.2
  let vertices := addToBitangent vertices c.2.1 tb.2
  let vertices := addToBitangent vertices c.2.2 tb.2
  let counts := counts.set c.1 (counts.getD c.1 0 + 1)
  let counts := counts.set c.2.1 (counts.getD c.2.1 0 + 1)
  let counts := counts.set c.2.2 (counts.getD c.2.2 0 + 1)
  (vertices, counts)

/-- Averaging loop of lines 164 to 169: scale the accumulated tangent and
bitangent of each vertex by one over its reference count. -/
def averageTangents (vertices : List ModelVertex) (counts : List Nat) : List ModelVertex :=
  List.zipWith
    (fun v n =>
      let denom := 1 / (n : ℚ)
      { v with tangent := v.tangent * denom, bitangent := v.bitangent * denom })
    vertices counts

/-- Whole tangent pass of load_model: triangle loop from vertices with zero
accumulators and a zero count per vertex, then the averaging loop. -/
def computeTangents (vertices : List ModelVertex) (indices : List Nat) : List ModelVertex :=
  let p := (chunks3 indices).foldl applyTriangle (vertices, List.replicate vertices.length 0)
  averageTangents p.1 p.2

/-- Vertices of one mesh as load_model returns them: built from the flat
tobj arrays, then run through the tangent pass. -/
def loadMeshVertices (positions texcoords normals : List ℚ) (indices : List Nat) :
    List ModelVertex :=
  computeTangents (buildVertices positions texcoords normals) indices

/-- How often one index triple references vertex i (a degenerate triple may
reference it up to three times). -/
def slotCount (i : Nat) (c : Nat × Nat × Nat) : Nat :=
  (if c.1 = i then 1 else 0) + (if c.2.1 = i then 1 else 0) + (if c.2.2 = i then 1 else 0)

/-- Total number of index references to vertex i. -/
def refCount (i : Nat) (cs : List (Nat × Nat × Nat)) : Nat :=
  (cs.map (slotCount i)).sum

/-- Sum over all index references to vertex i of the referencing triangle's
tangent, the per-triangle tangents taken at the initial vertices. -/
def tangentSum (vertices : List ModelVertex) (i : Nat) (cs : List (Nat × Nat × Nat)) : Vec3 :=
  (cs.map fun c => (triangleTB vertices c).1 * ((slotCount i c : ℚ))).sum

/-- Sum over all index references to vertex i of the referencing triangle's
bitangent, taken at the initial vertices. -/
def bitangentSum (vertices : List ModelVertex) (i : Nat) (cs : List (Nat × Nat × Nat)) : Vec3 :=
  (cs.map fun c => (triangleTB vertices c).2 * ((slotCount i c : ℚ))).sum

/-! ### Vector algebra helpers -/

theorem Vec3.add_assoc (a b c : Vec3) : a + b + c = a + (b + c) := by
  cases a; cases b; cases c; simp [Vec3.add_def]; refine ⟨?_, ?_, ?_⟩ <;> ring

theorem Vec3.add_zero (v : Vec3) : v + 0 = v := by
  cases v; simp [Vec3.add_def, Vec3.zero_def]

theorem Vec3.mul_zero_q (v : Vec3) : v * (0 : ℚ) = 0 := by
  cases v; simp [Vec3.mul_def, Vec3.zero_def]

theorem Vec3.mul_one_q (v : Vec3) : v * (1 : ℚ) = v := by
  cases v; simp [Vec3.mul_def]

theorem Vec3.mul_add_q (v : Vec3) (a b : ℚ) : v * (a + b) = v * a + v * b := by
  cases v; simp [Vec3.mul_def, Vec3.add_def]; refine ⟨?_, ?_, ?_⟩ <;> ring

/-! ### List indexing helpers -/

theorem getD_set_self {α : Type} [Inhabited α] (l : List α) (i : Nat) (v : α)
    (h : i < l.length) : (l.set i v).getD i default = v := by
  simp [List.getD_eq_getElem?_getD, List.getElem?_set, h]

theorem getD_set_ne {α : Type} [Inhabited α] (l : List α) (i j : Nat) (v : α)
    (h : i ≠ j) : (l.set i v).getD j default = l.getD j default := by
  simp [List.getD_eq_getElem?_getD, List.getElem?_set, h]

theorem getD_zero_set_self (l : List Nat) (i : Nat) (v : Nat) (h : i < l.length) :
    (l.set i v).getD i 0 = v := by
  simp [List.getD_eq_getElem?_getD, List.getElem?_set, h]

theorem getD_zero_set_ne (l : List Nat) (i j : Nat) (v : Nat) (h : i ≠ j) :
    (l.set i v).getD j 0 = l.getD j 0 := by
  simp [List.getD_eq_getElem?_getD, List.getElem?_set, h]

/-! ### The triangle loop preserves positions and texture coordinates -/

/-- The loop mutates only tangents and bitangents; this relation captures
what it leaves alone relative to the initial vertex list. -/
def Preserves (vs0 vs : List ModelVertex) : Prop :=
  ∀ j : Nat,
    (vs.getD j default).position = (vs0.getD j default).position ∧
    (vs.getD j default).texture_coordinates = (vs0.getD j default).texture_coordinates

theorem Preserves.refl (vs : List ModelVertex) : Preserves vs vs := fun _ => ⟨rfl, rfl⟩

theorem triangleTB_congr {vs0 vs : List ModelVertex} (h : Preserves vs0 vs)
    (c : Nat × Nat × Nat) : triangleTB vs c = triangleTB vs0 c := by
  simp only [triangleTB, (h c.1).1, (h c.1).2, (h c.2.1).1, (h c.2.1).2,
    (h c.2.2).1, (h c.2.2).2]

theorem addToTangent_length (vs : List ModelVertex) (k : Nat) (t : Vec3) :
    (addToTangent vs k t).length = vs.length := by
  simp [addToTangent]

theorem addToBitangent_length (vs : List ModelVertex) (k : Nat) (t : Vec3) :
    (addToBitangent vs k t).length = vs.length := by
  simp [addToBitangent]

theorem addToTangent_getD (vs : List ModelVertex) (k i : Nat) (t : Vec3)
    (hi : i < vs.length) :
    (addToTangent vs k t).getD i default =
      if k = i then
        { vs.getD i default with tangent := t + (vs.getD i default).tangent }
      else vs.getD i default := by
  by_cases h : k = i
  · subst h
    rw [if_pos rfl]
    exact getD_set_self _ _ _ hi
  · rw [if_neg h]
    exact getD_set_ne _ _ _ _ h

theorem addToBitangent_getD (vs : List ModelVertex) (k i : Nat) (t : Vec3)
    (hi : i < vs.length) :
    (addToBitangent vs k t).getD i default =
      if k = i then
        { vs.getD i default with bitangent := t + (vs.getD i default).bitangent }
      else vs.getD i default := by
  by_cases h : k = i
  · subst h
    rw [if_pos rfl]
    exact getD_set_self _ _ _ hi
  · rw [if_neg h]
    exact getD_set_ne _ _ _ _ h

theorem addToTangent_preserves {vs0 vs : List ModelVertex} (h : Preserves vs0 vs)
    (k : Nat) (t : Vec3) : Preserves vs0 (addToTangent vs k t) := by
  intro j
  by_cases hj : j < vs.length
  · rw [addToTangent_getD vs k j t hj]
    rcases h j with ⟨h1, h2⟩
    by_cases hk : k = j
    · rw [if_pos hk]; exact ⟨h1, h2⟩
    · rw [if_neg hk]; exact ⟨h1, h2⟩
  · have hsame : (addToTangent vs k t).getD j default = vs.getD j default := by
      have hlen : (addToTangent vs k t).length = vs.length := addToTangent_length vs k t
      rw [List.getD_eq_getElem?_getD, List.getD_eq_getElem?_getD,
        List.getElem?_eq_none (by omega), List.getElem?_eq_none (by omega)]
    rw [hsame]; exact h j

theorem addToBitangent_preserves {vs0 vs : List ModelVertex} (h : Preserves vs0 vs)
    (k : Nat) (t : Vec3) : Preserves vs0 (addToBitangent vs k t) := by
  intro j
  by_cases hj : j < vs.length
  · rw [addToBitangent_getD vs k j t hj]
    rcases h j with ⟨h1, h2⟩
    by_cases hk : k = j
    · rw [if_pos hk]; exact ⟨h1, h2⟩
    · rw [if_neg hk]; exact ⟨h1, h2⟩
  · have hsame : (addToBitangent vs k t).getD j default = vs.getD j default := by
      have hlen : (addToBitangent vs k t).length = vs.length := addToBitangent_length vs k t
      rw [List.getD_eq_getElem?_getD, List.getD_eq_getElem?_getD,
        List.getElem?_eq_none (by omega), List.getElem?_eq_none (by omega)]
    rw [hsame]; exact h j

theorem Vec3.add_comm (a b : Vec3) : a + b = b + a := by
  cases a; cases b
  simp only [Vec3.add_def, Vec3.mk.injEq]
  refine ⟨?_, ?_, ?_⟩ <;> ring

theorem addToTangent_tangent (vs : List ModelVertex) (k i : Nat) (t : Vec3)
    (hi : i < vs.length) :
    ((addToTangent vs k t).getD i default).tangent
      = (vs.getD i default).tangent + t * (if k = i then (1 : ℚ) else 0) := by
  rw [addToTangent_getD vs k i t hi]
  by_cases h : k = i
  · rw [if_pos h, if_pos h, Vec3.mul_one_q]
    exact Vec3.add_comm t (vs.getD i default).tangent
  · rw [if_neg h, if_neg h, Vec3.mul_zero_q, Vec3.add_zero]

theorem addToTangent_bitangent (vs : List ModelVertex) (k i : Nat) (t : Vec3)
    (hi : i < vs.length) :
    ((addToTangent vs k t).getD i default).bitangent = (vs.getD i default).bitangent := by
  rw [addToTangent_getD vs k i t hi]
  by_cases h : k = i
  · rw [if_pos h]
  · rw [if_neg h]

theorem addToBitangent_bitangent (vs : List ModelVertex) (k i : Nat) (t : Vec3)
    (hi : i < vs.length) :
    ((addToBitangent vs k t).getD i default).bitangent
      = (vs.getD i default).bitangent + t * (if k = i then (1 : ℚ) else 0) := by
  rw [addToBitangent_getD vs k i t hi]
  by_cases h : k = i
  · rw [if_pos h, if_pos h, Vec3.mul_one_q]
    exact Vec3.add_comm t (vs.getD i default).bitangent
  · rw [if_neg h, if_neg h, Vec3.mul_zero_q, Vec3.add_zero]

theorem addToBitangent_tangent (vs : List ModelVertex) (k i : Nat) (t : Vec3)
    (hi : i < vs.length) :
    ((addToBitangent vs k t).getD i default).tangent = (vs.getD i default).tangent := by
  rw [addToBitangent_getD vs k i t hi]
  by_cases h : k = i
  · rw [if_pos h]
  · rw [if_neg h]

theorem counts_set_getD (cnt : List Nat) (k i : Nat) (hi : i < cnt.length) :
    (cnt.set k (cnt.getD k 0 + 1)).getD i 0
      = cnt.getD i 0 + (if k = i then 1 else 0) := by
  by_cases h : k = i
  · subst h
    rw [if_pos rfl, getD_zero_set_self _ _ _ hi]
  · rw [if_neg h, getD_zero_set_ne _ _ _ _ h, Nat.add_zero]

theorem applyTriangle_fst_length (vs : List ModelVertex) (cnt : List Nat)
    (c : Nat × Nat × Nat) : (applyTriangle (vs, cnt) c).1.length = vs.length := by
  simp [applyTriangle, addToTangent_length, addToBitangent_length]

theorem applyTriangle_snd_length (vs : List ModelVertex) (cnt : List Nat)
    (c : Nat × Nat × Nat) : (applyTriangle (vs, cnt) c).2.length = cnt.length := by
  simp [applyTriangle]

theorem applyTriangle_preserves {vs0 vs : List ModelVertex} {cnt : List Nat}
    {c : Nat × Nat × Nat} (hp : Preserves vs0 vs) :
    Preserves vs0 (applyTriangle (vs, cnt) c).1 :=
  addToBitangent_preserves
    (addToBitangent_preserves
      (addToBitangent_preserves
        (addToTangent_preserves
          (addToTangent_preserves (addToTangent_preserves hp _ _) _ _) _ _) _ _) _ _) _ _

theorem applyTriangle_tangent (vs : List ModelVertex) (cnt : List Nat)
    (c : Nat × Nat × Nat) (i : Nat) (hi : i < vs.length) :
    ((applyTriangle (vs, cnt) c).1.getD i default).tangent
      = (vs.getD i default).tangent + (triangleTB vs c).1 * ((slotCount i c : ℕ) : ℚ) := by
  have l1 : i < (addToTangent vs c.1 (triangleTB vs c).1).length := by
    rw [addToTangent_length]; exact hi
  have l2 : i < (addToTangent (addToTangent vs c.1 (triangleTB vs c).1) c.2.1
      (triangleTB vs c).1).length := by
    rw [addToTangent_length]; exact l1
  have l3 : i < (addToTangent (addToTangent (addToTangent vs c.1 (triangleTB vs c).1) c.2.1
      (triangleTB vs c).1) c.2.2 (triangleTB vs c).1).length := by
    rw [addToTangent_length]; exact l2
  have l4 : i < (addToBitangent (addToTangent (addToTangent (addToTangent vs c.1
      (triangleTB vs c).1) c.2.1 (triangleTB vs c).1) c.2.2 (triangleTB vs c).1) c.1
      (triangleTB vs c).2).length := by
    rw [addToBitangent_length]; exact l3
  have l5 : i < (addToBitangent (addToBitangent (addToTangent (addToTangent (addToTangent vs
      c.1 (triangleTB vs c).1) c.2.1 (triangleTB vs c).1) c.2.2 (triangleTB vs c).1) c.1
      (triangleTB vs c).2) c.2.1 (triangleTB vs c).2).length := by
    rw [addToBitangent_length]; exact l4
  show ((addToBitangent (addToBitangent (addToBitangent (addToTangent (addToTangent
      (addToTangent vs c.1 (triangleTB vs c).1) c.2.1 (triangleTB vs c).1) c.2.2
      (triangleTB vs c).1) c.1 (triangleTB vs c).2) c.2.1 (triangleTB vs c).2) c.2.2
      (triangleTB vs c).2).getD i default).tangent = _
  rw [addToBitangent_tangent _ _ _ _ l5, addToBitangent_tangent _ _ _ _ l4,
    addToBitangent_tangent _ _ _ _ l3, addToTangent_tangent _ _ _ _ l2,
    addToTangent_tangent _ _ _ _ l1, addToTangent_tangent _ _ _ _ hi]
  generalize (vs.getD i default).tangent = a
  generalize (triangleTB vs c).1 = t
  obtain ⟨ax, ay, az⟩ := a
  obtain ⟨tx, ty, tz⟩ := t
  by_cases h1 : c.1 = i <;> by_cases h2 : c.2.1 = i <;> by_cases h3 : c.2.2 = i <;>
    simp [slotCount, h1, h2, h3, Vec3.add_def, Vec3.mul_def] <;>
    refine ⟨?_, ?_, ?_⟩ <;> push_cast <;> ring

theorem applyTriangle_bitangent (vs : List ModelVertex) (cnt : List Nat)
    (c : Nat × Nat × Nat) (i : Nat) (hi : i < vs.length) :
    ((applyTriangle (vs, cnt) c).1.getD i default).bitangent
      = (vs.getD i default).bitangent + (triangleTB vs c).2 * ((slotCount i c : ℕ) : ℚ) := by
  have l1 : i < (addToTangent vs c.1 (triangleTB vs c).1).length := by
    rw [addToTangent_length]; exact hi
  have l2 : i < (addToTangent (addToTangent vs c.1 (triangleTB vs c).1) c.2.1
      (triangleTB vs c).1).length := by
    rw [addToTangent_length]; exact l1
  have l3 : i < (addToTangent (addToTangent (addToTangent vs c.1 (triangleTB vs c).1) c.2.1
      (triangleTB vs c).1) c.2.2 (triangleTB vs c).1).length := by
    rw [addToTangent_length]; exact l2
  have l4 : i < (addToBitangent (addToTangent (addToTangent (addToTangent vs c.1
      (triangleTB vs c).1) c.2.1 (triangleTB vs c).1) c.2.2 (triangleTB vs c).1) c.1
      (triangleTB vs c).2).length := by
    rw [addToBitangent_length]; exact l3
  have l5 : i < (addToBitangent (addToBitangent (addToTangent (addToTangent (addToTangent vs
      c.1 (triangleTB vs c).1) c.2.1 (triangleTB vs c).1) c.2.2 (triangleTB vs c).1) c.1
      (triangleTB vs c).2) c.2.1 (triangleTB vs c).2).length := by
    rw [addToBitangent_length]; exact l4
  show ((addToBitangent (addToBitangent (addToBitangent (addToTangent (addToTangent
      (addToTangent vs c.1 (triangleTB vs c).1) c.2.1 (triangleTB vs c).1) c.2.2
      (triangleTB vs c).1) c.1 (triangleTB vs c).2) c.2.1 (triangleTB vs c).2) c.2.2
      (triangleTB vs c).2).getD i default).bitangent = _
  rw [addToBitangent_bitangent _ _ _ _ l5, addToBitangent_bitangent _ _ _ _ l4,
    addToBitangent_bitangent _ _ _ _ l3, addToTangent_bitangent _ _ _ _ l2,
    addToTangent_bitangent _ _ _ _ l1, addToTangent_bitangent _ _ _ _ hi]
  generalize (vs.getD i default).bitangent = a
  generalize (triangleTB vs c).2 = b
  obtain ⟨ax, ay, az⟩ := a
  obtain ⟨bx, by', bz⟩ := b
  by_cases h1 : c.1 = i <;> by_cases h2 : c.2.1 = i <;> by_cases h3 : c.2.2 = i <;>
    simp [slotCount, h1, h2, h3, Vec3.add_def, Vec3.mul_def] <;>
    refine ⟨?_, ?_, ?_⟩ <;> push_cast <;> ring

theorem applyTriangle_counts (vs : List ModelVertex) (cnt : List Nat)
    (c : Nat × Nat × Nat) (i : Nat) (hi : i < cnt.length) :
    (applyTriangle (vs, cnt) c).2.getD i 0 = cnt.getD i 0 + slotCount i c := by
  have l1 : i < (cnt.set c.1 (cnt.getD c.1 0 + 1)).length := by
    rw [List.length_set]; exact hi
  have l2 : i < ((cnt.set c.1 (cnt.getD c.1 0 + 1)).set c.2.1
      ((cnt.set c.1 (cnt.getD c.1 0 + 1)).getD c.2.1 0 + 1)).length := by
    rw [List.length_set]; exact l1
  show (((cnt.set c.1 (cnt.getD c.1 0 + 1)).set c.2.1
      ((cnt.set c.1 (cnt.getD c.1 0 + 1)).getD c.2.1 0 + 1)).set c.2.2
      (((cnt.set c.1 (cnt.getD c.1 0 + 1)).set c.2.1
        ((cnt.set c.1 (cnt.getD c.1 0 + 1)).getD c.2.1 0 + 1)).getD c.2.2 0 + 1)).getD i 0
      = cnt.getD i 0 + slotCount i c
  rw [counts_set_getD _ _ _ l2, counts_set_getD _ _ _ l1, counts_set_getD _ _ _ hi]
  by_cases h1 : c.1 = i <;> by_cases h2 : c.2.1 = i <;> by_cases h3 : c.2.2 = i <;>
    simp [slotCount, h1, h2, h3]

/-! ### Summation helpers -/

theorem tangentSum_nil (vs : List ModelVertex) (i : Nat) : tangentSum vs i [] = 0 := rfl

theorem bitangentSum_nil (vs : List ModelVertex) (i : Nat) : bitangentSum vs i [] = 0 := rfl

theorem refCount_nil (i : Nat) : refCount i [] = 0 := rfl

theorem tangentSum_cons (vs : List ModelVertex) (i : Nat) (c : Nat × Nat × Nat)
    (cs : List (Nat × Nat × Nat)) :
    tangentSum vs i (c :: cs)
      = (triangleTB vs c).1 * ((slotCount i c : ℕ) : ℚ) + tangentSum vs i cs := by
  simp [tangentSum]

theorem bitangentSum_cons (vs : List ModelVertex) (i : Nat) (c : Nat × Nat × Nat)
    (cs : List (Nat × Nat × Nat)) :
    bitangentSum vs i (c :: cs)
      = (triangleTB vs c).2 * ((slotCount i c : ℕ) : ℚ) + bitangentSum vs i cs := by
  simp [bitangentSum]

theorem refCount_cons (i : Nat) (c : Nat × Nat × Nat) (cs : List (Nat × Nat × Nat)) :
    refCount i (c :: cs) = slotCount i c + refCount i cs := by
  simp [refCount]

/-! ### The triangle loop, folded over the whole index buffer -/

theorem foldl_applyTriangle (vs0 : List ModelVertex) (cs : List (Nat × Nat × Nat)) :
    ∀ (vs : List ModelVertex) (cnt : List Nat),
      Preserves vs0 vs → vs.length = vs0.length → cnt.length = vs0.length →
      (cs.foldl applyTriangle (vs, cnt)).1.length = vs0.length ∧
      (cs.foldl applyTriangle (vs, cnt)).2.length = vs0.length ∧
      Preserves vs0 (cs.foldl applyTriangle (vs, cnt)).1 ∧
      ∀ i, i < vs0.length →
        ((cs.foldl applyTriangle (vs, cnt)).1.getD i default).tangent
            = (vs.getD i default).tangent + tangentSum vs0 i cs ∧
        ((cs.foldl applyTriangle (vs, cnt)).1.getD i default).bitangent
            = (vs.getD i default).bitangent + bitangentSum vs0 i cs ∧
        (cs.foldl applyTriangle (vs, cnt)).2.getD i 0 = cnt.getD i 0 + refCount i cs := by
  induction cs with
  | nil =>
    intro vs cnt hp hl hc
    refine ⟨hl, hc, hp, fun i _ => ?_⟩
    simp only [List.foldl_nil, tangentSum_nil, bitangentSum_nil, refCount_nil,
      Vec3.add_zero, Nat.add_zero]
    exact ⟨trivial, trivial, trivial⟩
  | cons c cs ih =>
    intro vs cnt hp hl hc
    rw [List.foldl_cons]
    have hl1 : (applyTriangle (vs, cnt) c).1.length = vs0.length := by
      rw [applyTriangle_fst_length]; exact hl
    have hc1 : (applyTriangle (vs, cnt) c).2.length = vs0.length := by
      rw [applyTriangle_snd_length]; exact hc
    obtain ⟨ih1, ih2, ih3, ih4⟩ :=
      ih (applyTriangle (vs, cnt) c).1 (applyTriangle (vs, cnt) c).2
        (applyTriangle_preserves hp) hl1 hc1
    refine ⟨ih1, ih2, ih3, fun i hi => ?_⟩
    obtain ⟨t1, t2, t3⟩ := ih4 i hi
    have hvi : i < vs.length := by rw [hl]; exact hi
    have hci : i < cnt.length := by rw [hc]; exact hi
    refine ⟨?_, ?_, ?_⟩
    · rw [t1, applyTriangle_tangent vs cnt c i hvi, triangleTB_congr hp c,
        tangentSum_cons, Vec3.add_assoc]
    · rw [t2, applyTriangle_bitangent vs cnt c i hvi, triangleTB_congr hp c,
        bitangentSum_cons, Vec3.add_assoc]
    · rw [t3, applyTriangle_counts vs cnt c i hci, refCount_cons, Nat.add_assoc]

/-! ### Facts about the freshly built vertex list -/

theorem buildVertices_length (positions texcoords normals : List ℚ) :
    (buildVertices positions texcoords normals).length = positions.length / 3 := by
  simp [buildVertices]

theorem buildVertices_getD (positions texcoords normals : List ℚ) (i : Nat)
    (hi : i < positions.length / 3) :
    (buildVertices positions texcoords normals).getD i default =
      { position := ⟨positions.getD (i * 3) 0, positions.getD (i * 3 + 1) 0,
          positions.getD (i * 3 + 2) 0⟩
        texture_coordinates := ⟨texcoords.getD (i * 2) 0, texcoords.getD (i * 2 + 1) 0⟩
        normal := ⟨normals.getD (i * 3) 0, normals.getD (i * 3 + 1) 0,
          normals.getD (i * 3 + 2) 0⟩
        tangent := ⟨0, 0, 0⟩
        bitangent := ⟨0, 0, 0⟩ } := by
  rw [List.getD_eq_getElem?_getD, buildVertices, List.getElem?_map,
    List.getElem?_range hi]
  rfl

theorem replicate_getD_zero (n i : Nat) : (List.replicate n (0 : Nat)).getD i 0 = 0 := by
  rw [List.getD_eq_getElem?_getD, List.getElem?_replicate]
  by_cases h : i < n <;> simp [h]

/-! ### Locating a referenced vertex inside the index buffer -/

theorem chunks3_mem : ∀ (l : List Nat) (c : Nat × Nat × Nat),
    c ∈ chunks3 l → c.1 ∈ l ∧ c.2.1 ∈ l ∧ c.2.2 ∈ l
  | a :: b :: d :: rest, c, h => by
    simp only [chunks3, List.mem_cons] at h
    rcases h with h | h
    · subst h
      refine ⟨by simp, by simp, by simp⟩
    · obtain ⟨h1, h2, h3⟩ := chunks3_mem rest c h
      exact ⟨by simp [h1], by simp [h2], by simp [h3]⟩
  | [], c, h => by simp [chunks3] at h
  | [a], c, h => by simp [chunks3] at h
  | [a, b], c, h => by simp [chunks3] at h

theorem refCount_pos_exists {i : Nat} :
    ∀ {cs : List (Nat × Nat × Nat)}, 0 < refCount i cs → ∃ c ∈ cs, 0 < slotCount i c := by
  intro cs
  induction cs with
  | nil => intro h; simp [refCount] at h
  | cons c cs ih =>
    intro h
    rw [refCount_cons] at h
    by_cases hc : 0 < slotCount i c
    · exact ⟨c, List.mem_cons_self c cs, hc⟩
    · obtain ⟨d, hd, hslot⟩ := ih (by omega)
      exact ⟨d, List.mem_cons_of_mem c hd, hslot⟩

theorem slotCount_pos_cases {i : Nat} {c : Nat × Nat × Nat} (h : 0 < slotCount i c) :
    c.1 = i ∨ c.2.1 = i ∨ c.2.2 = i := by
  by_cases h1 : c.1 = i
  · exact Or.inl h1
  by_cases h2 : c.2.1 = i
  · exact Or.inr (Or.inl h2)
  by_cases h3 : c.2.2 = i
  · exact Or.inr (Or.inr h3)
  simp [slotCount, h1, h2, h3] at h

/-! ### The averaging loop, pointwise -/

theorem averageTangents_getD : ∀ (vs : List ModelVertex) (cnt : List Nat) (i : Nat),
    i < vs.length → i < cnt.length →
    (averageTangents vs cnt).getD i default
      = { vs.getD i default with
          tangent := (vs.getD i default).tangent * (1 / ((cnt.getD i 0 : ℕ) : ℚ))
          bitangent := (vs.getD i default).bitangent * (1 / ((cnt.getD i 0 : ℕ) : ℚ)) }
  | v :: vs, n :: cnt, 0, _, _ => rfl
  | v :: vs, n :: cnt, i + 1, h1, h2 => by
    have h1' : i < vs.length := by simpa using h1
    have h2' : i < cnt.length := by simpa using h2
    simpa [averageTangents] using averageTangents_getD vs cnt i h1' h2'
  | [], _, i, h1, _ => absurd h1 (by simp)
  | _ :: _, [], i, _, h2 => absurd h2 (by simp)

theorem Vec3.mk_zero_add (v : Vec3) : (⟨0, 0, 0⟩ : Vec3) + v = v := by
  cases v; simp [Vec3.add_def]

theorem Vec2.sub_eq (a b : Vec2) : a - b = ⟨a.x - b.x, a.y - b.y⟩ := rfl

theorem Vec3.sub_def (a b : Vec3) : a - b = ⟨a.x - b.x, a.y - b.y, a.z - b.z⟩ := rfl

/-- C3: in the tangent computation of load_model, every vertex referenced by
at least one index triple, provided no triple referencing it has a zero
texture-space determinant, ends with tangent and bitangent equal to the sum
of the per-triangle closed-form tangents and bitangents over all index
references to it, divided by the number of such references. The
well-formedness hypotheses (index count divisible by three, indices in
range) rule out the panics of the source loop. -/
theorem load_model_tangent_average
    (positions texcoords normals : List ℚ) (indices : List Nat) (i : Nat)
    (hdiv : indices.length % 3 = 0)
    (hrange : ∀ j ∈ indices, j < positions.length / 3)
    (href : 0 < refCount i (chunks3 indices))
    (hdet : ∀ c ∈ chunks3 indices, 0 < slotCount i c →
        uvDet (buildVertices positions texcoords normals) c ≠ 0) :
    ((loadMeshVertices positions texcoords normals indices).getD i default).tangent
        = tangentSum (buildVertices positions texcoords normals) i (chunks3 indices)
            * (1 / (refCount i (chunks3 indices) : ℚ))
      ∧ ((loadMeshVertices positions texcoords normals indices).getD i default).bitangent
        = bitangentSum (buildVertices positions texcoords normals) i (chunks3 indices)
            * (1 / (refCount i (chunks3 indices) : ℚ)) := by
  have hvslen : (buildVertices positions texcoords normals).length = positions.length / 3 :=
    buildVertices_length positions texcoords normals
  have hip : i < positions.length / 3 := by
    obtain ⟨c, hc, hslot⟩ := refCount_pos_exists href
    obtain ⟨m1, m2, m3⟩ := chunks3_mem indices c hc
    rcases slotCount_pos_cases hslot with h | h | h
    · exact hrange i (h ▸ m1)
    · exact hrange i (h ▸ m2)
    · exact hrange i (h ▸ m3)
  have hi : i < (buildVertices positions texcoords normals).length := by
    rw [hvslen]; exact hip
  obtain ⟨f1, f2, f3, f4⟩ :=
    foldl_applyTriangle (buildVertices positions texcoords normals) (chunks3 indices)
      (buildVertices positions texcoords normals)
      (List.replicate (buildVertices positions texcoords normals).length 0)
      (Preserves.refl _) rfl (by simp)
  obtain ⟨t1, t2, t3⟩ := f4 i hi
  have hkey : loadMeshVertices positions texcoords normals indices
      = averageTangents
          ((chunks3 indices).foldl applyTriangle
            (buildVertices positions texcoords normals,
              List.replicate (buildVertices positions texcoords normals).length 0)).1
          ((chunks3 indices).foldl applyTriangle
            (buildVertices positions texcoords normals,
              List.replicate (buildVertices positions texcoords normals).length 0)).2 := rfl
  have hT0 : ((buildVertices positions texcoords normals).getD i default).tangent
      = (⟨0, 0, 0⟩ : Vec3) := by
    rw [buildVertices_getD positions texcoords normals i hip]
  have hB0 : ((buildVertices positions texcoords normals).getD i default).bitangent
      = (⟨0, 0, 0⟩ : Vec3) := by
    rw [buildVertices_getD positions texcoords normals i hip]
  rw [hkey, averageTangents_getD _ _ i (by rw [f1]; exact hi) (by rw [f2]; exact hi)]
  dsimp only
  rw [t1, t2, t3, replicate_getD_zero, Nat.zero_add, hT0, hB0,
    Vec3.mk_zero_add, Vec3.mk_zero_add]
  exact ⟨rfl, rfl⟩

/-- Single demonstration triangle with a unit texture-space determinant:
positions of a right triangle, texture coordinates 00, 10, 01. -/
def demoPositions : List ℚ := [0, 0, 0, 1, 0, 0, 0, 1, 0]

/-- Texture coordinates of the demonstration triangle. -/
def demoTexcoords : List ℚ := [0, 0, 1, 0, 0, 1]

/-- Normals of the demonstration triangle. -/
def demoNormals : List ℚ := [0, 0, 1, 0, 0, 1, 0, 0, 1]

/-- Index buffer of the demonstration triangle. -/
def demoIndices : List Nat := [0, 1, 2]

theorem demo_uvDet :
    uvDet (buildVertices demoPositions demoTexcoords demoNormals) (0, 1, 2) = 1 := by
  simp only [uvDet]
  rw [buildVertices_getD demoPositions demoTexcoords demoNormals 0 (by decide),
    buildVertices_getD demoPositions demoTexcoords demoNormals 1 (by decide),
    buildVertices_getD demoPositions demoTexcoords demoNormals 2 (by decide)]
  simp only [Vec2.sub_eq]
  norm_num [demoTexcoords]

/-- Witness for C3 at the demonstration triangle, vertex 0 of one triple. -/
theorem load_model_tangent_average_witness :
    ((loadMeshVertices demoPositions demoTexcoords demoNormals demoIndices).getD 0
          default).tangent
        = tangentSum (buildVertices demoPositions demoTexcoords demoNormals) 0
            (chunks3 demoIndices) * (1 / (refCount 0 (chunks3 demoIndices) : ℚ))
      ∧ ((loadMeshVertices demoPositions demoTexcoords demoNormals demoIndices).getD 0
          default).bitangent
        = bitangentSum (buildVertices demoPositions demoTexcoords demoNormals) 0
            (chunks3 demoIndices) * (1 / (refCount 0 (chunks3 demoIndices) : ℚ)) :=
  load_model_tangent_average demoPositions demoTexcoords demoNormals demoIndices 0
    (by decide) (by decide) (by decide)
    (by
      intro c hc hslot
      have hch : chunks3 demoIndices = [(0, 1, 2)] := rfl
      rw [hch] at hc
      simp only [List.mem_singleton] at hc
      subst hc
      rw [demo_uvDet]
      norm_num)

/-- Triangle whose three texture coordinates coincide: its texture-space
edge determinant is exactly zero. -/
def degenerateTexcoords : List ℚ := [0, 0, 0, 0, 0, 0]

/-- C4: the division by the texture-space edge determinant in load_model is
unguarded; on a triangle with coincident texture coordinates the divisor
computed at line 137 of src/model/resource.rs is exactly zero, so the
division-by-zero case is reachable. -/
theorem degenerate_uv_determinant_zero :
    uvDet (buildVertices demoPositions degenerateTexcoords demoNormals) (0, 1, 2) = 0 := by
  simp only [uvDet]
  rw [buildVertices_getD demoPositions degenerateTexcoords demoNormals 0 (by decide),
    buildVertices_getD demoPositions degenerateTexcoords demoNormals 1 (by decide),
    buildVertices_getD demoPositions degenerateTexcoords demoNormals 2 (by decide)]
  simp only [Vec2.sub_eq]
  norm_num [degenerateTexcoords]

/-! ## Real-valued vectors, for the camera math of src/camera.rs

The camera, controller, projection and instance code computes with f32
angles, trigonometric functions and square roots; it is modelled over the
reals. -/

/-- Spatial vector of reals, modelling cgmath Vector3 of f32 where
trigonometry is involved. -/
structure Vec3R where
  x : ℝ
  y : ℝ
  z : ℝ

noncomputable instance : DecidableEq Vec3R := fun _ _ => Classical.propDecidable _

instance : Add Vec3R := ⟨fun a b => ⟨a.x + b.x, a.y + b.y, a.z + b.z⟩⟩

instance : HMul Vec3R ℝ Vec3R := ⟨fun v s => ⟨v.x * s, v.y * s, v.z * s⟩⟩

theorem Vec3R.add_eq (a b : Vec3R) : a + b = ⟨a.x + b.x, a.y + b.y, a.z + b.z⟩ := rfl

theorem Vec3R.mul_eq (v : Vec3R) (s : ℝ) : v * s = ⟨v.x * s, v.y * s, v.z * s⟩ := rfl

/-- Magnitude as cgmath computes it: square root of the dot product with
itself. -/
noncomputable def Vec3R.magnitude (v : Vec3R) : ℝ :=
  Real.sqrt (v.x * v.x + v.y * v.y + v.z * v.z)

/-- Normalization as cgmath computes it: the vector times one over its
magnitude. -/
noncomputable def Vec3R.normalize (v : Vec3R) : Vec3R :=
  v * (1 / v.magnitude)

/-! ## Camera (src/camera.rs lines 22 to 52) -/

/-- Camera state: position, yaw and pitch. -/
structure Camera where
  position : Vec3R
  yaw : ℝ
  pitch : ℝ

/-- Camera construction. -/
def Camera.new (position : Vec3R) (yaw pitch : ℝ) : Camera :=
  ⟨position, yaw, pitch⟩

/-- The look direction before normalization, as built inside Camera matrix
at line 48 of src/camera.rs. -/
noncomputable def Camera.directionRaw (c : Camera) : Vec3R :=
  ⟨Real.cos c.pitch * Real.cos c.yaw, Real.sin c.pitch, Real.cos c.pitch * Real.sin c.yaw⟩

/-- The normalized look direction passed to look_to_rh by Camera matrix. -/
noncomputable def Camera.direction (c : Camera) : Vec3R :=
  (Camera.directionRaw c).normalize

/-! ## Camera controller (src/camera.rs lines 135 to 226) -/

/-- Pitch bound: FRAC_PI_2 minus 0.0001, from line 20 of src/camera.rs. -/
noncomputable def SAFE_FRAC_PI_2 : ℝ := Real.pi / 2 - 0.0001

/-- Controller state: level-triggered movement intents, edge-triggered
rotation and scroll deltas, and the speed and sensitivity scalars. -/
structure CameraController where
  amount_left : ℝ
  amount_right : ℝ
  amount_forward : ℝ
  amount_backward : ℝ
  amount_up : ℝ
  amount_down : ℝ
  rotate_horizontal : ℝ
  rotate_vertical : ℝ
  scroll : ℝ
  speed : ℝ
  sensitivity : ℝ

/-- Controller construction: every accumulator zero. -/
def CameraController.new (speed sensitivity : ℝ) : CameraController :=
  ⟨0, 0, 0, 0, 0, 0, 0, 0, 0, speed, sensitivity⟩

/-- Per-frame update, lines 193 to 225 of src/camera.rs: move the position
along the yaw basis, the scroll direction and vertically; integrate the
rotation deltas into yaw and pitch; zero the consumed deltas; then the
final pitch comparison block, translated branch for branch: max_angle is
bound to minus SAFE_FRAC_PI_2, a pitch below minus max_angle is snapped to
minus max_angle with an early return, otherwise a pitch above max_angle is
snapped to max_angle. -/
noncomputable def CameraController.update (ctl : CameraController) (camera : Camera)
    (dt : ℝ) : CameraController × Camera :=
  let yaw_sin := Real.sin camera.yaw
  let yaw_cos := Real.cos camera.yaw
  let forward := (Vec3R.mk yaw_cos 0 yaw_sin).normalize
  let right := (Vec3R.mk (-yaw_sin) 0 yaw_cos).normalize
  let position := camera.position
      + forward * (ctl.amount_forward - ctl.amount_backward) * ctl.speed * dt
  let position := position + right * (ctl.amount_right - ctl.amount_left) * ctl.speed * dt
  let pitch_sin := Real.sin camera.pitch
  let pitch_cos := Real.cos camera.pitch
  let scrollward := (Vec3R.mk (pitch_cos * yaw_cos) pitch_sin (pitch_cos * yaw_sin)).normalize
  let position := position + scrollward * ctl.scroll * ctl.speed * ctl.sensitivity * dt
  let position := Vec3R.mk position.x
      (position.y + (ctl.amount_up - ctl.amount_down) * ctl.speed * dt) position.z
  let yaw := camera.yaw + ctl.rotate_horizontal * ctl.sensitivity * dt
  let pitch := camera.pitch + -ctl.rotate_vertical * ctl.sensitivity * dt
  let max_angle := -SAFE_FRAC_PI_2
  let pitch := if pitch < -max_angle then -max_angle
    else if pitch > max_angle then max_angle else pitch
  ({ ctl with rotate_horizontal := 0, rotate_vertical := 0, scroll := 0 },
    { position := position, yaw := yaw, pitch := pitch })

/-- C8: every controller update zeroes the consumed per-frame deltas,
rotate_horizontal, rotate_vertical and scroll, and leaves the six
movement-intent amounts and the speed and sensitivity scalars unchanged. -/
theorem update_consumes_deltas (ctl : CameraController) (camera : Camera) (dt : ℝ) :
    ((ctl.update camera dt).1.rotate_horizontal = 0
        ∧ (ctl.update camera dt).1.rotate_vertical = 0
        ∧ (ctl.update camera dt).1.scroll = 0)
      ∧ (ctl.update camera dt).1.amount_left = ctl.amount_left
      ∧ (ctl.update camera dt).1.amount_right = ctl.amount_right
      ∧ (ctl.update camera dt).1.amount_forward = ctl.amount_forward
      ∧ (ctl.update camera dt).1.amount_backward = ctl.amount_backward
      ∧ (ctl.update camera dt).1.amount_up = ctl.amount_up
      ∧ (ctl.update camera dt).1.amount_down = ctl.amount_down
      ∧ (ctl.update camera dt).1.speed = ctl.speed
      ∧ (ctl.update camera dt).1.sensitivity = ctl.sensitivity :=
  ⟨⟨rfl, rfl, rfl⟩, rfl, rfl, rfl, rfl, rfl, rfl, rfl, rfl⟩

/-- Camera at the origin, level look: pitch zero, strictly inside the safe
range. -/
noncomputable def idleCamera : Camera := Camera.new ⟨0, 0, 0⟩ 0 0

/-- Controller with no pending input: every intent and delta zero, speed
and sensitivity one. -/
noncomputable def idleController : CameraController := CameraController.new 1 1

theorem safe_frac_pi_2_pos : 0 < SAFE_FRAC_PI_2 := by
  have h := Real.pi_gt_three
  rw [SAFE_FRAC_PI_2]
  norm_num
  linarith

/-- C2 failing input: a camera whose pitch is 0, strictly inside the safe
range, updated with zero rotation input, leaves the update with pitch
snapped to plus SAFE_FRAC_PI_2 rather than unchanged: the comparison block
of lines 215 to 224 has its comparisons inverted, so it is not a clamp. -/
theorem update_pitch_clamp_inverted :
    (-SAFE_FRAC_PI_2 < idleCamera.pitch ∧ idleCamera.pitch < SAFE_FRAC_PI_2)
      ∧ idleController.rotate_vertical = 0
      ∧ (idleController.update idleCamera 1).2.pitch = SAFE_FRAC_PI_2
      ∧ SAFE_FRAC_PI_2 ≠ idleCamera.pitch := by
  have hS := safe_frac_pi_2_pos
  have hpitch : idleCamera.pitch = 0 := rfl
  refine ⟨⟨by rw [hpitch]; linarith, by rw [hpitch]; linarith⟩, rfl, ?_, by rw [hpitch]; linarith⟩
  show (if (0 : ℝ) + -0 * 1 * 1 < -(-SAFE_FRAC_PI_2) then -(-SAFE_FRAC_PI_2)
      else if (0 : ℝ) + -0 * 1 * 1 > -SAFE_FRAC_PI_2 then -SAFE_FRAC_PI_2
      else (0 : ℝ) + -0 * 1 * 1) = SAFE_FRAC_PI_2
  rw [if_pos (by linarith), neg_neg]

/-- C9: for any camera, pitch strictly inside the open interval from minus
ninety to plus ninety degrees, the un-normalized look direction is nonzero
and the normalized direction used by Camera matrix has unit length (its
magnitude is in fact one already before normalization). -/
theorem camera_direction_unit_length (c : Camera)
    (h1 : -(Real.pi / 2) < c.pitch) (h2 : c.pitch < Real.pi / 2) :
    c.directionRaw ≠ ⟨0, 0, 0⟩
      ∧ c.directionRaw.magnitude = 1
      ∧ c.direction.magnitude = 1 := by
  have hy := Real.sin_sq_add_cos_sq c.yaw
  have hp := Real.sin_sq_add_cos_sq c.pitch
  have key : c.directionRaw.x * c.directionRaw.x + c.directionRaw.y * c.directionRaw.y
      + c.directionRaw.z * c.directionRaw.z = 1 := by
    show (Real.cos c.pitch * Real.cos c.yaw) * (Real.cos c.pitch * Real.cos c.yaw)
        + Real.sin c.pitch * Real.sin c.pitch
        + (Real.cos c.pitch * Real.sin c.yaw) * (Real.cos c.pitch * Real.sin c.yaw) = 1
    linear_combination (Real.cos c.pitch) ^ 2 * hy + hp
  have hmag : c.directionRaw.magnitude = 1 := by
    rw [Vec3R.magnitude, key, Real.sqrt_one]
  have hne : c.directionRaw ≠ ⟨0, 0, 0⟩ := by
    intro h
    rw [h] at key
    norm_num at key
  have hdir : c.direction = c.directionRaw := by
    rw [Camera.direction, Vec3R.normalize, hmag]
    cases c.directionRaw
    simp [Vec3R.mul_eq]
  exact ⟨hne, hmag, by rw [hdir, hmag]⟩

/-- Witness for C9 at pitch zero, yaw zero. -/
theorem camera_direction_unit_length_witness :
    (Camera.new ⟨0, 0, 0⟩ 0 0).directionRaw ≠ ⟨0, 0, 0⟩
      ∧ (Camera.new ⟨0, 0, 0⟩ 0 0).directionRaw.magnitude = 1
      ∧ (Camera.new ⟨0, 0, 0⟩ 0 0).direction.magnitude = 1 :=
  camera_direction_unit_length (Camera.new ⟨0, 0, 0⟩ 0 0)
    (by have := Real.pi_pos; show -(Real.pi / 2) < 0; linarith)
    (by have := Real.pi_pos; show (0 : ℝ) < Real.pi / 2; linarith)

/-! ## Instance grid (src/main.rs lines 381 to 415) -/

/-- Grid side length, line 48 of src/main.rs. -/
def INSTANCES_PER_ROW : Nat := 10

/-- Grid spacing, line 382 of src/main.rs. -/
noncomputable def SPACE_BETWEEN : ℝ := 3

/-- Quaternion as cgmath stores it: scalar part plus vector part. -/
structure QuaternionR where
  s : ℝ
  v : Vec3R

/-- cgmath Quaternion from_axis_angle, with the angle given in degrees as
the source passes Deg values: scalar part cos of half the angle, vector
part the axis scaled by sin of half the angle, after the degree-to-radian
conversion. -/
noncomputable def QuaternionR.fromAxisAngleDeg (axis : Vec3R) (deg : ℝ) : QuaternionR :=
  ⟨Real.cos (deg * Real.pi / 180 / 2), axis * Real.sin (deg * Real.pi / 180 / 2)⟩

/-- One scene instance: position and rotation. -/
structure Instance where
  position : Vec3R
  rotation : QuaternionR

noncomputable instance : Inhabited Instance := ⟨⟨⟨0, 0, 0⟩, ⟨1, ⟨0, 0, 0⟩⟩⟩⟩

/-- The instance of grid cell x, z, lines 386 to 402 of src/main.rs:
position from the spacing formula; identity rotation, written as a zero
rotation about the z axis, when the position is exactly zero, otherwise a
45 degree rotation about the normalized position. -/
noncomputable def mkInstance (x z : Nat) : Instance :=
  let xpos := SPACE_BETWEEN * ((x : ℝ) - (INSTANCES_PER_ROW : ℝ) / 2)
  let zpos := SPACE_BETWEEN * ((z : ℝ) - (INSTANCES_PER_ROW : ℝ) / 2)
  let position := Vec3R.mk xpos 0 zpos
  let rotation := if position = ⟨0, 0, 0⟩
    then QuaternionR.fromAxisAngleDeg ⟨0, 0, 1⟩ 0
    else QuaternionR.fromAxisAngleDeg position.normalize 45
  ⟨position, rotation⟩

/-- The full grid, lines 384 to 405: flat_map over z of a map over x. -/
noncomputable def initialize_instances : List Instance :=
  (List.range INSTANCES_PER_ROW).flatMap fun z =>
    (List.range INSTANCES_PER_ROW).map fun x => mkInstance x z

theorem flatMap_grid_getD {α : Type} [Inhabited α] (f : Nat → Nat → α) (m : Nat) :
    ∀ (zs : List Nat) (zi x : Nat), zi < zs.length → x < m →
      ((zs.flatMap fun z => (List.range m).map fun x => f x z).getD (zi * m + x) default)
        = f x (zs.getD zi 0) := by
  intro zs
  induction zs with
  | nil => intro zi x h _; exact absurd h (by simp)
  | cons z zs ih =>
    intro zi x hz hx
    rw [List.flatMap_cons]
    cases zi with
    | zero =>
      have h0 : 0 * m + x = x := by omega
      rw [h0, List.getD_eq_getElem?_getD, List.getElem?_append, if_pos (by simpa using hx)]
      rw [List.getElem?_map, List.getElem?_range hx]
      rfl
    | succ zi =>
      have hzi : zi < zs.length := by simpa using hz
      have harith : (zi + 1) * m + x - (m • 1) = zi * m + x := by
        simp [Nat.succ_mul]; omega
      rw [List.getD_eq_getElem?_getD, List.getElem?_append,
        if_neg (by simp [Nat.succ_mul]; omega)]
      simp only [List.length_map, List.length_range]
      have : (zi + 1) * m + x - m = zi * m + x := by rw [Nat.succ_mul]; omega
      rw [this, ← List.getD_eq_getElem?_getD, ih zi x hzi hx]
      rfl

/-- C5: the instance grid has INSTANCES_PER_ROW squared entries; the entry
of grid cell x, z sits at index z times ten plus x, its position follows
the spacing formula three times the index minus half the row count, an
exactly-zero position gets the identity quaternion, and every other
position gets the 45 degree rotation about its own normalization. -/
theorem initialize_instances_grid (x z : Nat)
    (hx : x < INSTANCES_PER_ROW) (hz : z < INSTANCES_PER_ROW) :
    initialize_instances.length = INSTANCES_PER_ROW * INSTANCES_PER_ROW
      ∧ (initialize_instances.getD (z * INSTANCES_PER_ROW + x) default).position
        = ⟨3 * ((x : ℝ) - 10 / 2), 0, 3 * ((z : ℝ) - 10 / 2)⟩
      ∧ ((initialize_instances.getD (z * INSTANCES_PER_ROW + x) default).position
            = ⟨0, 0, 0⟩ →
          (initialize_instances.getD (z * INSTANCES_PER_ROW + x) default).rotation
            = ⟨1, ⟨0, 0, 0⟩⟩)
      ∧ ((initialize_instances.getD (z * INSTANCES_PER_ROW + x) default).position
            ≠ ⟨0, 0, 0⟩ →
          (initialize_instances.getD (z * INSTANCES_PER_ROW + x) default).rotation
            = QuaternionR.fromAxisAngleDeg
                ((initialize_instances.getD (z * INSTANCES_PER_ROW + x)
                  default).position.normalize) 45) := by
  have hinst : initialize_instances.getD (z * INSTANCES_PER_ROW + x) default
      = mkInstance x z := by
    have h := flatMap_grid_getD mkInstance INSTANCES_PER_ROW (List.range INSTANCES_PER_ROW)
      z x (by simpa using hz) hx
    rw [initialize_instances, h, List.getD_eq_getElem?_getD, List.getElem?_range hz]
    rfl
  have hlen : initialize_instances.length = INSTANCES_PER_ROW * INSTANCES_PER_ROW := rfl
  refine ⟨hlen, ?_, ?_, ?_⟩
  · rw [hinst]
    show Vec3R.mk (SPACE_BETWEEN * ((x : ℝ) - (INSTANCES_PER_ROW : ℝ) / 2)) 0
        (SPACE_BETWEEN * ((z : ℝ) - (INSTANCES_PER_ROW : ℝ) / 2)) = _
    rw [SPACE_BETWEEN]
    norm_num [INSTANCES_PER_ROW]
  · intro hpos
    rw [hinst] at hpos ⊢
    have hpos2 : Vec3R.mk (SPACE_BETWEEN * ((x : ℝ) - (INSTANCES_PER_ROW : ℝ) / 2)) 0
        (SPACE_BETWEEN * ((z : ℝ) - (INSTANCES_PER_ROW : ℝ) / 2)) = ⟨0, 0, 0⟩ := hpos
    show (if Vec3R.mk (SPACE_BETWEEN * ((x : ℝ) - (INSTANCES_PER_ROW : ℝ) / 2)) 0
          (SPACE_BETWEEN * ((z : ℝ) - (INSTANCES_PER_ROW : ℝ) / 2)) = ⟨0, 0, 0⟩
        then QuaternionR.fromAxisAngleDeg ⟨0, 0, 1⟩ 0
        else QuaternionR.fromAxisAngleDeg (Vec3R.normalize _) 45) = ⟨1, ⟨0, 0, 0⟩⟩
    rw [if_pos hpos2, QuaternionR.fromAxisAngleDeg]
    norm_num [Vec3R.mul_eq]
  · intro hpos
    rw [hinst] at hpos ⊢
    have hpos2 : ¬ (Vec3R.mk (SPACE_BETWEEN * ((x : ℝ) - (INSTANCES_PER_ROW : ℝ) / 2)) 0
        (SPACE_BETWEEN * ((z : ℝ) - (INSTANCES_PER_ROW : ℝ) / 2)) = ⟨0, 0, 0⟩) := hpos
    show (if Vec3R.mk (SPACE_BETWEEN * ((x : ℝ) - (INSTANCES_PER_ROW : ℝ) / 2)) 0
          (SPACE_BETWEEN * ((z : ℝ) - (INSTANCES_PER_ROW : ℝ) / 2)) = ⟨0, 0, 0⟩
        then QuaternionR.fromAxisAngleDeg ⟨0, 0, 1⟩ 0
        else QuaternionR.fromAxisAngleDeg (Vec3R.normalize _) 45) = _
    rw [if_neg hpos2]
    rfl

/-- Witness for C5 at grid cell 0, 0. -/
theorem initialize_instances_grid_witness :
    initialize_instances.length = INSTANCES_PER_ROW * INSTANCES_PER_ROW
      ∧ (initialize_instances.getD (0 * INSTANCES_PER_ROW + 0) default).position
        = ⟨3 * (((0 : ℕ) : ℝ) - 10 / 2), 0, 3 * (((0 : ℕ) : ℝ) - 10 / 2)⟩
      ∧ ((initialize_instances.getD (0 * INSTANCES_PER_ROW + 0) default).position
            = ⟨0, 0, 0⟩ →
          (initialize_instances.getD (0 * INSTANCES_PER_ROW + 0) default).rotation
            = ⟨1, ⟨0, 0, 0⟩⟩)
      ∧ ((initialize_instances.getD (0 * INSTANCES_PER_ROW + 0) default).position
            ≠ ⟨0, 0, 0⟩ →
          (initialize_instances.getD (0 * INSTANCES_PER_ROW + 0) default).rotation
            = QuaternionR.fromAxisAngleDeg
                ((initialize_instances.getD (0 * INSTANCES_PER_ROW + 0)
                  default).position.normalize) 45) :=
  initialize_instances_grid 0 0 (by decide) (by decide)

/-! ## Projection and the depth-range correction matrix
(src/camera.rs lines 12 to 18 and 103 to 133) -/

/-- Homogeneous vector of reals, modelling cgmath Vector4 of f32. -/
structure Vec4R where
  x : ℝ
  y : ℝ
  z : ℝ
  w : ℝ

instance : Add Vec4R := ⟨fun a b => ⟨a.x + b.x, a.y + b.y, a.z + b.z, a.w + b.w⟩⟩

instance : HMul Vec4R ℝ Vec4R := ⟨fun v s => ⟨v.x * s, v.y * s, v.z * s, v.w * s⟩⟩

/-- Four-by-four matrix as cgmath stores it: four columns. Matrix4.new
takes its sixteen scalars column by column. -/
structure Mat4 where
  c0 : Vec4R
  c1 : Vec4R
  c2 : Vec4R
  c3 : Vec4R

/-- Matrix-vector product as cgmath computes it: the columns weighted by
the vector components. -/
noncomputable def Mat4.mulVec (m : Mat4) (v : Vec4R) : Vec4R :=
  m.c0 * v.x + m.c1 * v.y + m.c2 * v.z + m.c3 * v.w

/-- Matrix-matrix product as cgmath computes it, column by column. -/
noncomputable def Mat4.mul (m n : Mat4) : Mat4 :=
  ⟨m.mulVec n.c0, m.mulVec n.c1, m.mulVec n.c2, m.mulVec n.c3⟩

/-- The correction constant of src/camera.rs lines 12 to 18, its sixteen
literals transcribed in source order into the column-major constructor:
columns 1 0 0 0, then 0 1 0 0, then 0 0 0.5 0.5, then 0 0 0 1. -/
noncomputable def OPENGL_TO_WGPU_MATRIX : Mat4 :=
  ⟨⟨1, 0, 0, 0⟩, ⟨0, 1, 0, 0⟩, ⟨0, 0, 0.5, 0.5⟩, ⟨0, 0, 0, 1⟩⟩

/-- cgmath perspective matrix for a vertical field of view, aspect ratio
and near and far planes: f is the cotangent of half the field of view. -/
noncomputable def perspective (fovy aspect near far : ℝ) : Mat4 :=
  let f := Real.cos (fovy / 2) / Real.sin (fovy / 2)
  ⟨⟨f / aspect, 0, 0, 0⟩,
    ⟨0, f, 0, 0⟩,
    ⟨0, 0, (far + near) / (near - far), -1⟩,
    ⟨0, 0, (2 * far * near) / (near - far), 0⟩⟩

/-- Projection state, src/camera.rs lines 103 to 108. -/
structure Projection where
  aspect : ℝ
  fovy : ℝ
  z_near : ℝ
  z_far : ℝ

/-- Projection construction, lines 111 to 124: aspect is width over
height. -/
noncomputable def Projection.new (width height : Nat) (fovy z_near z_far : ℝ) : Projection :=
  ⟨(width : ℝ) / (height : ℝ), fovy, z_near, z_far⟩

/-- Projection resize, lines 126 to 128: recompute only the aspect. This
method is never invoked by GraphicsState resize. -/
noncomputable def Projection.resize (p : Projection) (width height : Nat) : Projection :=
  { p with aspect := (width : ℝ) / (height : ℝ) }

/-- Projection matrix, lines 130 to 132: the correction constant times the
perspective matrix. -/
noncomputable def Projection.matrix (p : Projection) : Mat4 :=
  Mat4.mul OPENGL_TO_WGPU_MATRIX (perspective p.fovy p.aspect p.z_near p.z_far)

/-- C7 failing input: the sixteen literals of OPENGL_TO_WGPU_MATRIX fill
the column-major constructor as the transpose of the standard correction,
so the constant maps the clip-space point 0 0 1 1, of normalized depth one,
to 0 0 0.5 1.5: the z output is half z rather than half z plus half w, the
w output is altered, and the resulting normalized depth is one third rather
than one. Projection matrix is indeed the constant times the perspective
matrix, but the depth-remapping clause of the claim fails. -/
theorem opengl_to_wgpu_depth_mapping_bug :
    (∀ p : Projection, p.matrix
        = Mat4.mul OPENGL_TO_WGPU_MATRIX (perspective p.fovy p.aspect p.z_near p.z_far))
      ∧ OPENGL_TO_WGPU_MATRIX.mulVec ⟨0, 0, 1, 1⟩ = ⟨0, 0, 1 / 2, 3 / 2⟩
      ∧ ((1 : ℝ) / 2 ≠ 0.5 * 1 + 0.5 * 1 ∨ (3 : ℝ) / 2 ≠ 1)
      ∧ (1 / 2 : ℝ) / (3 / 2) ≠ 1 := by
  refine ⟨fun p => rfl, ?_, ?_, ?_⟩
  · show (⟨1, 0, 0, 0⟩ : Vec4R) * 0 + (⟨0, 1, 0, 0⟩ : Vec4R) * 0
        + (⟨0, 0, 0.5, 0.5⟩ : Vec4R) * 1 + (⟨0, 0, 0, 1⟩ : Vec4R) * 1
      = (⟨0, 0, 1 / 2, 3 / 2⟩ : Vec4R)
    show (⟨1 * 0 + 0 * 0 + 0 * 1 + 0 * 1, 0 * 0 + 1 * 0 + 0 * 1 + 0 * 1,
        0 * 0 + 0 * 0 + 0.5 * 1 + 0 * 1, 0 * 0 + 0 * 0 + 0.5 * 1 + 1 * 1⟩ : Vec4R)
      = (⟨0, 0, 1 / 2, 3 / 2⟩ : Vec4R)
    norm_num
  · right
    norm_num
  · norm_num

/-! ## Graphics state, resize and per-frame error handling (src/main.rs) -/

/-- Window size in pixels, u32 components. -/
structure PhysicalSize where
  width : Nat
  height : Nat
deriving DecidableEq

/-- The surface configuration fields resize touches. -/
structure SurfaceConfiguration where
  width : Nat
  height : Nat
deriving DecidableEq

/-- Depth texture extent. -/
structure DepthTexture where
  width : Nat
  height : Nat
deriving DecidableEq

/-- Texture create_depth_texture, src/texture.rs lines 95 to 131: its
extent is the surface configuration extent. -/
def Texture.create_depth_texture (config : SurfaceConfiguration) : DepthTexture :=
  ⟨config.width, config.height⟩

/-- Text manager state the resize path touches: the text buffer extent. -/
structure TextManager where
  buffer_width : ℝ
  buffer_height : ℝ

/-- TextManager resize, src/main.rs lines 826 to 832: the buffer extent is
set to the configuration extent scaled by one half, the SCALE constant. -/
noncomputable def TextManager.resize (_t : TextManager) (config : SurfaceConfiguration) :
    TextManager :=
  ⟨(config.width : ℝ) * 0.5, (config.height : ℝ) * 0.5⟩

/-- The fields of GraphicsState that the modelled operations read or
write. -/
structure GraphicsState where
  config : SurfaceConfiguration
  size : PhysicalSize
  wireframe : Bool
  instances : List Instance
  depth_texture : DepthTexture
  camera : Camera
  projection : Projection
  camera_controller : CameraController
  text_manager : TextManager
  mouse_pressed : Bool

/-- GraphicsState resize, src/main.rs lines 538 to 547: when both
dimensions are positive, store the size, update the configuration extent,
reconfigure the surface, recreate the depth texture from the updated
configuration and resize the text manager; otherwise do nothing. The
projection is not touched. -/
noncomputable def GraphicsState.resize (s : GraphicsState) (size : PhysicalSize) :
    GraphicsState :=
  if size.width > 0 ∧ size.height > 0 then
    { s with
        size := size
        config := { s.config with width := size.width, height := size.height }
        depth_texture := Texture.create_depth_texture
          { s.config with width := size.width, height := size.height }
        text_manager := s.text_manager.resize
          { s.config with width := size.width, height := size.height } }
  else s

/-- A concrete state as initialize_surface and initialize_camera build it
for an 800 by 600 window: projection of 45 degree field of view, near 0.1,
far 100, camera at 0 5 10 with yaw minus ninety and pitch minus twenty
degrees, controller speed 8 and sensitivity 1. -/
noncomputable def exampleState : GraphicsState where
  config := ⟨800, 600⟩
  size := ⟨800, 600⟩
  wireframe := false
  instances := []
  depth_texture := Texture.create_depth_texture ⟨800, 600⟩
  camera := Camera.new ⟨0, 5, 10⟩ (-(90 * Real.pi / 180)) (-(20 * Real.pi / 180))
  projection := Projection.new 800 600 (45 * Real.pi / 180) 0.1 100
  camera_controller := CameraController.new 8 1
  text_manager := ⟨400, 300⟩
  mouse_pressed := false

/-- C1 failing input: resizing the 800 by 600 state to 100 by 100 updates
the configuration and gives the depth texture the new configuration
extent, but leaves the projection untouched, aspect 800 over 600 included,
where the claim expects aspect 100 over 100. -/
theorem resize_updates_depth_not_projection :
    (exampleState.resize ⟨100, 100⟩).config.width = 100
      ∧ (exampleState.resize ⟨100, 100⟩).config.height = 100
      ∧ (exampleState.resize ⟨100, 100⟩).depth_texture.width
          = (exampleState.resize ⟨100, 100⟩).config.width
      ∧ (exampleState.resize ⟨100, 100⟩).depth_texture.height
          = (exampleState.resize ⟨100, 100⟩).config.height
      ∧ (exampleState.resize ⟨100, 100⟩).projection = exampleState.projection
      ∧ (exampleState.resize ⟨100, 100⟩).projection.aspect = (800 : ℝ) / 600
      ∧ (800 : ℝ) / 600 ≠ (100 : ℝ) / 100 := by
  have hres : exampleState.resize ⟨100, 100⟩
      = { exampleState with
            size := ⟨100, 100⟩
            config := ⟨100, 100⟩
            depth_texture := Texture.create_depth_texture ⟨100, 100⟩
            text_manager := exampleState.text_manager.resize ⟨100, 100⟩ } := by
    rw [GraphicsState.resize, if_pos (by exact ⟨by norm_num, by norm_num⟩)]
  rw [hres]
  refine ⟨rfl, rfl, rfl, rfl, rfl, ?_, by norm_num⟩
  show ((800 : ℕ) : ℝ) / ((600 : ℕ) : ℝ) = (800 : ℝ) / 600
  norm_num

/-- C10: a resize whose width or height is zero changes nothing: the whole
state, every field included, is returned as it was. -/
theorem resize_zero_noop (s : GraphicsState) (size : PhysicalSize)
    (h : size.width = 0 ∨ size.height = 0) : s.resize size = s := by
  rw [GraphicsState.resize, if_neg (by rcases h with h | h <;> omega)]

/-- Witness for C10: resizing the example state to width zero is the
identity. -/
theorem resize_zero_noop_witness : exampleState.resize ⟨0, 600⟩ = exampleState :=
  resize_zero_noop exampleState ⟨0, 600⟩ (Or.inl rfl)

/-- wgpu surface acquisition errors. -/
inductive SurfaceError
  | Timeout
  | Outdated
  | Lost
  | OutOfMemory
deriving DecidableEq

/-- What the event loop does with the frame after one render call. -/
inductive LoopControl
  | continueLoop
  | exitLoop
deriving DecidableEq

/-- The match on the render result, src/main.rs lines 113 to 121: success
keeps the state and continues; Lost logs, resizes with the current size
and continues; OutOfMemory exits the event loop; every other error is
logged, the frame is skipped and the loop continues. -/
noncomputable def handleRenderResult (s : GraphicsState) (r : Except SurfaceError Unit) :
    GraphicsState × LoopControl :=
  match r with
  | .ok () => (s, .continueLoop)
  | .error .Lost => (s.resize s.size, .continueLoop)
  | .error .OutOfMemory => (s, .exitLoop)
  | .error _ => (s, .continueLoop)

/-- C6: the per-frame render result is handled by cases: Lost triggers a
resize with the current size and the loop continues, OutOfMemory exits the
loop, and the two remaining surface errors, Timeout and Outdated, skip the
frame with the state unchanged and the loop continuing. -/
theorem render_error_handling (s : GraphicsState) :
    handleRenderResult s (.ok ()) = (s, .continueLoop)
      ∧ handleRenderResult s (.error .Lost) = (s.resize s.size, .continueLoop)
      ∧ handleRenderResult s (.error .OutOfMemory) = (s, .exitLoop)
      ∧ handleRenderResult s (.error .Timeout) = (s, .continueLoop)
      ∧ handleRenderResult s (.error .Outdated) = (s, .continueLoop) :=
  ⟨rfl, rfl, rfl, rfl, rfl⟩

end WgpuRenderer
